import Mathlib

/-!
Verification of the Ultra Doc-Intelligence backend (src/backend/main.py).

Strings are modelled as `List Char`, Python floats as `ℚ`.  External
collaborators (the embedding provider, the vector index, the language model,
`json.loads`) are passed in as explicit parameters, so every handler is a
pure function of its inputs.
-/

set_option maxHeartbeats 1000000

/-- A retrieved langchain `Document`: its `page_content` together with the
optional `score` entry of its metadata (the only metadata key the backend
reads). -/
structure LDocument where
  page_content : List Char
  score : Option ℚ
deriving DecidableEq, Repr

/-- The apostrophe character (used in the uncertainty phrase list). -/
def apostrophe : Char := Char.ofNat 39

/-- Python `str.split(sep)` for a single-character separator: splits on every
occurrence of `sep`, keeping empty pieces, and never returns an empty list. -/
def pySplit (sep : Char) : List Char → List (List Char)
  | [] => [[]]
  | c :: cs =>
    if c = sep then [] :: pySplit sep cs
    else
      match pySplit sep cs with
      | [] => [[c]]
      | t :: ts => (c :: t) :: ts

/-- Python `str.split()` with no argument: maximal runs of non-whitespace
characters, with no empty tokens. -/
def pySplitWs : List Char → List (List Char)
  | [] => []
  | c :: cs =>
    let rest := pySplitWs cs
    if c.isWhitespace then rest
    else
      match cs with
      | [] => [[c]]
      | d :: _ =>
        if d.isWhitespace then [c] :: rest
        else
          match rest with
          | [] => [[c]]
          | r :: rs => (c :: r) :: rs

/-- The distinct elements of a token list (Python `set(...)`, used only for
its cardinality and membership, which are order independent). -/
def distinctTokens : List (List Char) → List (List Char)
  | [] => []
  | x :: xs =>
    let r := distinctTokens xs
    if x ∈ r then r else x :: r

/-- Python's substring test `needle in hay`. -/
def isSubstr (needle : List Char) : List Char → Bool
  | [] => needle.isEmpty
  | c :: t => needle.isPrefixOf (c :: t) || isSubstr needle t

/-- Python `" ".join(xs)`. -/
def joinWithSpace (xs : List (List Char)) : List Char :=
  List.intercalate [' '] xs

/-- Python `min(a, b)`. -/
def pymin (a b : ℚ) : ℚ := if a ≤ b then a else b

/-- Python `max(a, b)`. -/
def pymax (a b : ℚ) : ℚ := if b ≤ a then a else b

/-- Python `max(a, b)` on natural numbers. -/
def pymaxNat (a b : ℕ) : ℕ := if b ≤ a then a else b

/-- The fixed uncertainty phrase list of `calculate_confidence` (line 134). -/
def uncertainty_phrases : List (List Char) :=
  [ "not found".toList
  , "unclear".toList
  , ("don".toList ++ [apostrophe] ++ "t know".toList)
  , "cannot find".toList
  , "no information".toList ]

/-- Factor 1 of `calculate_confidence`, scores branch (lines 117-118):
`scores = [doc.metadata.get('score', 0) for doc in retrieved_docs]` followed
by `sum(scores) / len(scores) if scores else 0`. -/
def avgScores (retrieved_docs : List LDocument) : ℚ :=
  let scores := retrieved_docs.map fun doc => doc.score.getD 0
  if scores.isEmpty then 0 else scores.sum / (scores.length : ℚ)

/-- Factor 2 of `calculate_confidence` (lines 124-126): 0 unless the answer
is non-empty with length above 10, else `min(len(answer)/100, 1.0)`. -/
def completenessScore (answer : List Char) : ℚ :=
  if answer ≠ [] ∧ 10 < answer.length then
    pymin ((answer.length : ℚ) / 100) 1
  else 0

/-- `set(question.lower().split())` (line 129). -/
def questionKeywords (question : List Char) : List (List Char) :=
  distinctTokens (pySplitWs (question.map Char.toLower))

/-- `" ".join([doc.page_content for doc in retrieved_docs]).lower()`
(line 130). -/
def sourceTextOf (retrieved_docs : List LDocument) : List Char :=
  (joinWithSpace (retrieved_docs.map fun d => d.page_content)).map Char.toLower

/-- Factor 3 of `calculate_confidence` (lines 129-131):
`len([k for k in question_keywords if k in source_text]) /
max(len(question_keywords), 1)`. -/
def overlapScore (retrieved_docs : List LDocument) (question : List Char) : ℚ :=
  (((questionKeywords question).filter fun k =>
      isSubstr k (sourceTextOf retrieved_docs)).length : ℚ) /
    ((pymaxNat (questionKeywords question).length 1 : ℕ) : ℚ)

/-- Factor 4 of `calculate_confidence` (lines 134-135): flat 0.3 penalty when
the lowercased answer contains an uncertainty phrase. -/
def uncertaintyPenalty (answer : List Char) : ℚ :=
  if uncertainty_phrases.any fun p => isSubstr p (answer.map Char.toLower)
  then (3 / 10 : ℚ) else 0

/-- `calculate_confidence` (src/backend/main.py lines 99-144): short-circuit
to 0 on an empty passage list; otherwise the retrieval score is the metadata
mean when the first passage carries a `score` key and the fixed default 0.8
otherwise, combined `0.4 / 0.3 / 0.3` with completeness and keyword overlap,
minus the uncertainty penalty, clamped to `[0, 1]` by
`max(0.0, min(1.0, confidence))`. -/
def calculate_confidence (retrieved_docs : List LDocument)
    (answer question : List Char) : ℚ :=
  match retrieved_docs with
  | [] => 0
  | d0 :: _ =>
    let retrieval_score : ℚ :=
      if d0.score.isSome then avgScores retrieved_docs else (8 / 10 : ℚ)
    let confidence :=
      retrieval_score * (4 / 10 : ℚ) + completenessScore answer * (3 / 10 : ℚ) +
        overlapScore retrieved_docs question * (3 / 10 : ℚ) -
        uncertaintyPenalty answer
    pymax 0 (pymin 1 confidence)

/-- Clamping to the unit interval, as the spec phrases it. -/
def clamp01 (x : ℚ) : ℚ := pymax 0 (pymin 1 x)

/-- The retrieval-quality factor as the claim words it: the mean of the
per-passage similarity scores when the retriever exposes them, the fixed
default 0.8 otherwise. -/
def claimRetrieval (docs : List LDocument) : ℚ :=
  if docs.all fun d => d.score.isSome then
    (docs.map fun d => d.score.getD 0).sum / (docs.length : ℚ)
  else (8 / 10 : ℚ)

/-- The completeness factor as the claim words it: 0 when the answer is empty
or has length at most 10, `min(length/100, 1)` otherwise. -/
def claimCompleteness (answer : List Char) : ℚ :=
  if answer = [] ∨ answer.length ≤ 10 then 0
  else pymin ((answer.length : ℚ) / 100) 1

/-- The keyword-overlap factor of the claim, read literally: distinct
lowercase whitespace tokens of the question that occur as substrings of the
lowercased plain concatenation (no separator) of the passage texts, divided
by `max(#tokens, 1)`. -/
def claimOverlapConcat (docs : List LDocument) (question : List Char) : ℚ :=
  let kws := questionKeywords question
  let src := ((docs.map fun d => d.page_content).flatten).map Char.toLower
  ((kws.filter fun k => isSubstr k src).length : ℚ) /
    ((pymaxNat kws.length 1 : ℕ) : ℚ)

/-- Claim C1's scoring formula, read literally (plain concatenation of the
passage texts in the overlap factor). -/
def claimConfidenceLiteral (docs : List LDocument)
    (answer question : List Char) : ℚ :=
  if docs = [] then 0
  else clamp01 ((4 / 10 : ℚ) * claimRetrieval docs +
    (3 / 10 : ℚ) * claimCompleteness answer +
    (3 / 10 : ℚ) * claimOverlapConcat docs question -
    uncertaintyPenalty answer)

/-- The keyword-overlap factor with the passage texts joined by single
spaces before lowercasing and the substring test (what line 130 of the code
actually builds). -/
def claimOverlapJoined (docs : List LDocument) (question : List Char) : ℚ :=
  let kws := questionKeywords question
  let src := (joinWithSpace (docs.map fun d => d.page_content)).map Char.toLower
  ((kws.filter fun k => isSubstr k src).length : ℚ) /
    ((pymaxNat kws.length 1 : ℕ) : ℚ)

/-- The fixed `/ask` answer when retrieval returns no passages (line 212). -/
def noContextAnswer : List Char :=
  "Not found in document - no relevant information available.".toList

/-- The synthetic answer prefix of the language-model fallback (line 257). -/
def errorAnswerPrefix : List Char := "Error generating answer: ".toList

/-- The low-confidence marker prepended to the answer (line 265). -/
def lowConfPrefix : List Char := "[Low confidence] ".toList

/-- The verification disclaimer appended to the answer (line 265). -/
def lowConfSuffix : List Char :=
  "\n\nNote: This answer may not be reliable. Please verify with the source document.".toList

/-- `CONFIDENCE_THRESHOLD = 0.3` (line 263). -/
def CONFIDENCE_THRESHOLD : ℚ := 3 / 10

/-- Python `round(q, 3)` on exact rationals: round half to even at the third
decimal place. -/
def pyRound3 (q : ℚ) : ℚ :=
  let x := q * 1000
  let n : ℤ := ⌊x⌋
  let r := x - (n : ℚ)
  let m : ℤ :=
    if r < 1 / 2 then n
    else if (1 / 2 : ℚ) < r then n + 1
    else if n % 2 = 0 then n else n + 1
  (m : ℚ) / 1000

/-- The guardrail metadata dictionary of the `/ask` response: the
`guardrail` tag plus, for `low_confidence`, the `original_confidence`
entry (lines 215, 266, 268). -/
inductive GuardrailMeta where
  | no_context_found
  | low_confidence (original_confidence : ℚ)
  | passed
deriving DecidableEq, Repr

/-- The `AnswerResponse` model (lines 43-47). -/
structure AnswerResponse where
  answer : List Char
  sources : List (List Char)
  confidence : ℚ
  metadata : GuardrailMeta
deriving DecidableEq, Repr

/-- A source preview: `doc.page_content[:200] + "..."` (line 271). -/
def sourcePreview (d : LDocument) : List Char :=
  d.page_content.take 200 ++ "...".toList

/-- The answer text after the `qa_chain` try/except (lines 251-258): the
chain's result on success, the synthetic error string on failure. -/
def askAnswer (qa_result : Except (List Char) (List Char × List LDocument)) :
    List Char :=
  match qa_result with
  | Except.ok p => p.1
  | Except.error e => errorAnswerPrefix ++ e

/-- The source documents after the try/except (lines 254, 258): the chain's
`source_documents` on success, the originally retrieved passages on
failure. -/
def askSourceDocs (retrieved_docs : List LDocument)
    (qa_result : Except (List Char) (List Char × List LDocument)) :
    List LDocument :=
  match qa_result with
  | Except.ok p => p.2
  | Except.error _ => retrieved_docs

/-- `/ask` after the no-document check (lines 208-278): short-circuit
response when retrieval is empty, otherwise answer generation with the
error fallback, confidence scoring, the 0.3 guardrail, source previews and
confidence rounding.  The language-model invocation (the `qa_chain` call)
is passed in as `qa_result`. -/
def ask_question (retrieved_docs : List LDocument)
    (qa_result : Except (List Char) (List Char × List LDocument))
    (question : List Char) : AnswerResponse :=
  if retrieved_docs.isEmpty then
    { answer := noContextAnswer, sources := [], confidence := 0,
      metadata := GuardrailMeta.no_context_found }
  else
    let answer := askAnswer qa_result
    let source_docs := askSourceDocs retrieved_docs qa_result
    let confidence := calculate_confidence source_docs answer question
    let labelled :=
      if confidence < CONFIDENCE_THRESHOLD then
        (lowConfPrefix ++ answer ++ lowConfSuffix,
          GuardrailMeta.low_confidence confidence)
      else (answer, GuardrailMeta.passed)
    { answer := labelled.1,
      sources := (source_docs.take 3).map sourcePreview,
      confidence := pyRound3 confidence,
      metadata := labelled.2 }

/-- A decoded JSON value (the possible results of `json.loads`). -/
inductive Json where
  | null
  | bool (b : Bool)
  | num (q : ℚ)
  | str (s : List Char)
  | arr (xs : List Json)
  | obj (kvs : List (List Char × Json))

/-- The `StructuredData` model (lines 49-60): 11 optional string fields,
each defaulting to null. -/
structure StructuredData where
  shipment_id : Option (List Char) := none
  shipper : Option (List Char) := none
  consignee : Option (List Char) := none
  pickup_datetime : Option (List Char) := none
  delivery_datetime : Option (List Char) := none
  equipment_type : Option (List Char) := none
  mode : Option (List Char) := none
  rate : Option (List Char) := none
  currency : Option (List Char) := none
  weight : Option (List Char) := none
  carrier_name : Option (List Char) := none
deriving DecidableEq, Repr

/-- Index of the first occurrence of a character. -/
def firstIdxOf (c : Char) : List Char → Option ℕ
  | [] => none
  | d :: ds => if d = c then some 0 else (firstIdxOf c ds).map (· + 1)

/-- Index of the last occurrence of a character. -/
def lastIdxOf (c : Char) (cs : List Char) : Option ℕ :=
  (firstIdxOf c cs.reverse).map fun i => cs.length - 1 - i

/-- The opening brace character. -/
def openBraceChar : Char := Char.ofNat 123

/-- The closing brace character. -/
def closeBraceChar : Char := Char.ofNat 125

/-- `re.search(r'\x7b.*\x7d', result_text, re.DOTALL)` (line 327): the
leftmost match of a greedy dot-all brace pattern, i.e. the span from the
first opening brace to the last closing brace, when the latter comes after
the former. -/
def braceSearch (cs : List Char) : Option (List Char) :=
  match firstIdxOf openBraceChar cs, lastIdxOf closeBraceChar cs with
  | some i, some j => if i < j then some ((cs.drop i).take (j - i + 1)) else none
  | _, _ => none

/-- The text handed to `json.loads` (lines 327-331): the regex match when
one exists, the entire reply otherwise. -/
def extractTarget (result_text : List Char) : List Char :=
  match braceSearch result_text with
  | some m => m
  | none => result_text

/-- Reading one nullable string field of the decoded object, as the pydantic
construction `StructuredData(**extracted_data)` (line 333) treats it: a
missing key or an explicit null gives null, a string gives the string, and
any other value is a schema mismatch that fails the construction. -/
def jsonFieldStr (kvs : List (List Char × Json)) (key : List Char) :
    Except Unit (Option (List Char)) :=
  match kvs.lookup key with
  | none => Except.ok none
  | some Json.null => Except.ok none
  | some (Json.str s) => Except.ok (some s)
  | some _ => Except.error ()

/-- `StructuredData(**extracted_data)` (line 333): the decoded JSON value
must be an object, and each of the 11 fields is read as a nullable
string. -/
def structured_data_of_json : Json → Except Unit StructuredData
  | Json.obj kvs => do
    let shipment_id ← jsonFieldStr kvs "shipment_id".toList
    let shipper ← jsonFieldStr kvs "shipper".toList
    let consignee ← jsonFieldStr kvs "consignee".toList
    let pickup_datetime ← jsonFieldStr kvs "pickup_datetime".toList
    let delivery_datetime ← jsonFieldStr kvs "delivery_datetime".toList
    let equipment_type ← jsonFieldStr kvs "equipment_type".toList
    let mode ← jsonFieldStr kvs "mode".toList
    let rate ← jsonFieldStr kvs "rate".toList
    let currency ← jsonFieldStr kvs "currency".toList
    let weight ← jsonFieldStr kvs "weight".toList
    let carrier_name ← jsonFieldStr kvs "carrier_name".toList
    Except.ok ⟨shipment_id, shipper, consignee, pickup_datetime,
      delivery_datetime, equipment_type, mode, rate, currency, weight,
      carrier_name⟩
  | _ => Except.error ()

/-- `/extract` after the no-document check (lines 292-336): the
language-model invocation and `json.loads` are passed in as parameters;
every failure path of the `try` block (model error, no valid JSON in the
selected text, schema mismatch) falls into the `except` and returns the
all-null record `StructuredData()`. -/
def extract_structured_data (llm_result : Except (List Char) (List Char))
    (json_loads : List Char → Option Json) : StructuredData :=
  match llm_result with
  | Except.error _ => {}
  | Except.ok result_text =>
    match json_loads (extractTarget result_text) with
    | none => {}
    | some j =>
      match structured_data_of_json j with
      | Except.error _ => {}
      | Except.ok sd => sd
/-- The `.` character, on which filenames are split. -/
def dotChar : Char := '.'

/-- `allowed_extensions = ['pdf', 'docx', 'doc', 'txt']` (line 152). -/
def allowed_extensions : List (List Char) :=
  ["pdf".toList, "docx".toList, "doc".toList, "txt".toList]

/-- `file.filename.split('.')[-1].lower()` (line 153): the piece after the
last dot (the whole name when there is no dot), lowercased. -/
def fileExtOf (filename : List Char) : List Char :=
  ((pySplit dotChar filename).getLastD []).map Char.toLower

/-- `filename.lower().split('.')[-1]` as computed by `load_document`
(line 65). -/
def load_document_ext (filename : List Char) : List Char :=
  (pySplit dotChar (filename.map Char.toLower)).getLastD []

/-- The claim's description of the checked extension: the lowercased
substring of the filename after its last dot. -/
def afterLastDotLower (filename : List Char) : List Char :=
  ((filename.reverse.takeWhile fun c => c != dotChar).reverse).map Char.toLower

/-- The document loader classes `load_document` dispatches on (lines 68-75). -/
inductive DocLoader where
  | pyPDFLoader
  | docx2txtLoader
  | textLoader
deriving DecidableEq, Repr

/-- The format dispatch of `load_document` (lines 63-79): pdf, docx/doc and
txt select a loader; any other extension raises, which `load_document`
turns into a 400 error. -/
def load_document_loader (filename : List Char) : Except (List Char) DocLoader :=
  let ext := load_document_ext filename
  if ext = "pdf".toList then Except.ok DocLoader.pyPDFLoader
  else if ext = "docx".toList ∨ ext = "doc".toList then
    Except.ok DocLoader.docx2txtLoader
  else if ext = "txt".toList then Except.ok DocLoader.textLoader
  else Except.error ("Unsupported file type: ".toList ++ ext)

/-- Modelled from the spec: the Chunker.  The splitting implementation
(`RecursiveCharacterTextSplitter`, configured in `chunk_document` at lines
89-94 with target size 500 and overlap 100) is an external library whose
code is not part of this repository; per section 4.1 of the spec, chunk
boundaries are at most 500 characters apart and each next chunk begins 100
characters before the end of the previous one.  `chunkAux` carries a
structural fuel equal to the text length, which is always sufficient since
each step consumes 400 characters. -/
def chunkAux : ℕ → List Char → List (List Char)
  | 0, cs => [cs]
  | n + 1, cs =>
    if cs.length ≤ 500 then [cs]
    else cs.take 500 :: chunkAux n (cs.drop 400)

/-- Modelled from the spec: chunking one text (see `chunkAux`). -/
def chunk_text (cs : List Char) : List (List Char) := chunkAux cs.length cs

/-- Modelled from the spec: `chunk_document` applied to the loaded document
segments (`split_documents` splits each segment and concatenates). -/
def chunk_document (docs : List (List Char)) : List (List Char) :=
  (docs.map chunk_text).flatten

/-- The process-wide mutable state (lines 33-34): the active vector store
(modelled by its stored chunk texts) and the current document name. -/
structure IndexState where
  vector_store : Option (List (List Char))
  current_document_name : Option (List Char)
deriving DecidableEq, Repr

/-- The state at process start: both globals are `None`. -/
def initState : IndexState := ⟨none, none⟩

/-- The 400 errors `/upload` can raise. -/
inductive UploadError where
  | unsupported_type
  | load_error (msg : List Char)
deriving DecidableEq, Repr

/-- The success payload of `/upload` (lines 181-186). -/
structure UploadSuccess where
  filename : List Char
  chunks_created : ℕ
  total_characters : ℕ
deriving DecidableEq, Repr

/-- `/upload` (lines 147-189): extension check, document load (the external
loader's outcome is passed in as `load_result`), chunking, vector-store
creation and assignment of both globals.  Returns the endpoint outcome and
the state after the request. -/
def upload_document (st : IndexState) (filename : List Char)
    (load_result : Except (List Char) (List (List Char))) :
    Except UploadError UploadSuccess × IndexState :=
  if fileExtOf filename ∈ allowed_extensions then
    match load_result with
    | Except.error e => (Except.error (UploadError.load_error e), st)
    | Except.ok documents =>
      let chunks := chunk_document documents
      (Except.ok ⟨filename, chunks.length, (chunks.map List.length).sum⟩,
        ⟨some chunks, some filename⟩)
  else (Except.error UploadError.unsupported_type, st)

/-- The 400 detail of `/ask` and `/extract` when no document is loaded
(lines 200, 289). -/
def noDocDetail : List Char :=
  "No document uploaded. Please upload a document first.".toList

/-- `/ask` (lines 192-278): reject when `vector_store is None`, otherwise
run the question pipeline (`ask_question`). -/
def ask_endpoint (st : IndexState) (retrieved_docs : List LDocument)
    (qa_result : Except (List Char) (List Char × List LDocument))
    (question : List Char) : Except (List Char) AnswerResponse :=
  match st.vector_store with
  | none => Except.error noDocDetail
  | some _ => Except.ok (ask_question retrieved_docs qa_result question)

/-- `/extract` (lines 281-336): reject when `vector_store is None`,
otherwise run the extraction pipeline. -/
def extract_endpoint (st : IndexState)
    (llm_result : Except (List Char) (List Char))
    (json_loads : List Char → Option Json) :
    Except (List Char) StructuredData :=
  match st.vector_store with
  | none => Except.error noDocDetail
  | some _ => Except.ok (extract_structured_data llm_result json_loads)

/-- The `/status` payload (lines 339-347), minus the constant fields. -/
structure StatusResponse where
  document_loaded : Bool
  current_document : Option (List Char)
  vector_store_initialized : Bool
deriving DecidableEq, Repr

/-- `/status`: `document_loaded = current_document_name is not None` and
`vector_store_initialized = vector_store is not None`. -/
def get_status (st : IndexState) : StatusResponse :=
  ⟨st.current_document_name.isSome, st.current_document_name,
    st.vector_store.isSome⟩

/-- One request served by the process.  The parameters carry the outcomes
of the external collaborators for that request. -/
inductive Event where
  | uploadReq (filename : List Char)
      (load_result : Except (List Char) (List (List Char)))
  | askReq (question : List Char) (retrieved_docs : List LDocument)
      (qa_result : Except (List Char) (List Char × List LDocument))
  | extractReq (llm_result : Except (List Char) (List Char))
  | statusReq

/-- Whether an `Except` outcome is a success. -/
def exceptIsOkB : Except ε α → Bool
  | Except.ok _ => true
  | Except.error _ => false

/-- The state transition of one request: only `/upload` writes the
process-wide globals. -/
def stepState (st : IndexState) : Event → IndexState
  | Event.uploadReq fn lr => (upload_document st fn lr).2
  | _ => st

/-- The state after serving a list of requests from process start. -/
def runEvents (es : List Event) : IndexState := es.foldl stepState initState

/-- Whether an event is a successful upload (the outcome of `/upload` does
not depend on the prior state, see `upload_fst_const`). -/
def uploadEventOk : Event → Bool
  | Event.uploadReq fn lr => exceptIsOkB (upload_document initState fn lr).1
  | _ => false

/-- The spec's reading of chunk reconstruction: the first passage, followed
by every later passage with its leading 100 overlap characters removed. -/
def concatMinusOverlap : List (List Char) → List Char
  | [] => []
  | c :: rest => c ++ (rest.map fun d => d.drop 100).flatten

/-- The consecutive pairs of a list. -/
def consecPairs {α : Type} : List α → List (α × α)
  | a :: b :: rest => (a, b) :: consecPairs (b :: rest)
  | _ => []
theorem overlapScore_eq_claimJoined (docs : List LDocument) (question : List Char) :
    overlapScore docs question = claimOverlapJoined docs question := rfl

theorem calc_conf_cons (d0 : LDocument) (rest : List LDocument)
    (answer question : List Char) :
    calculate_confidence (d0 :: rest) answer question =
      clamp01 ((if d0.score.isSome then avgScores (d0 :: rest) else (8 / 10 : ℚ)) * (4 / 10 : ℚ) +
        completenessScore answer * (3 / 10 : ℚ) +
        overlapScore (d0 :: rest) question * (3 / 10 : ℚ) -
        uncertaintyPenalty answer) := rfl

theorem clamp01_nonneg (x : ℚ) : 0 ≤ clamp01 x := by
  unfold clamp01 pymax pymin
  split_ifs <;> linarith

theorem clamp01_le_one (x : ℚ) : clamp01 x ≤ 1 := by
  unfold clamp01 pymax pymin
  split_ifs <;> linarith

theorem le_clamp01 (a x : ℚ) (h1 : a ≤ x) (h2 : a ≤ 1) : a ≤ clamp01 x := by
  unfold clamp01 pymax pymin
  split_ifs <;> linarith

theorem completenessScore_nonneg (answer : List Char) : 0 ≤ completenessScore answer := by
  unfold completenessScore pymin
  split_ifs <;> first
    | rfl
    | positivity

theorem overlapScore_nonneg (docs : List LDocument) (question : List Char) :
    0 ≤ overlapScore docs question := by
  unfold overlapScore
  positivity

theorem completenessScore_eq_claim (answer : List Char) :
    completenessScore answer = claimCompleteness answer := by
  unfold completenessScore claimCompleteness
  by_cases h1 : answer = []
  · subst h1; simp
  · by_cases h2 : answer.length ≤ 10
    · rw [if_neg, if_pos (Or.inr h2)]
      rintro ⟨_, hgt⟩
      omega
    · rw [if_pos ⟨h1, by omega⟩, if_neg]
      rintro (h | h)
      · exact h1 h
      · exact h2 h

theorem avgScores_eq_claimRetrieval (docs : List LDocument) (hne : docs ≠ [])
    (h : ∀ d ∈ docs, d.score.isSome) :
    avgScores docs = claimRetrieval docs := by
  have h1 : (docs.all fun d => d.score.isSome) = true := by
    rw [List.all_eq_true]
    exact h
  have h2 : ((docs.map fun doc => doc.score.getD 0).isEmpty) = false := by
    cases docs with
    | nil => exact absurd rfl hne
    | cons a l => rfl
  simp only [avgScores, claimRetrieval, h1, h2, if_true, Bool.false_eq_true,
    if_false, List.length_map]

/-- Claim C1, amended: for a non-empty passage list the Confidence Scorer
returns exactly `clamp01 (0.4 * R + 0.3 * C + 0.3 * O - P)` where `R` is the
mean of the per-passage scores when the passages expose them and the fixed
0.8 default when the first passage has no score, `C` is the claim's
completeness factor, `P` the uncertainty penalty, and `O` the keyword
overlap computed against the space-separated concatenation (single-space
join) of the passage texts — not the plain concatenation the claim
literally names.  For the empty passage list the scorer returns exactly 0
independently of answer and question. -/
theorem claim_C1_amended (docs : List LDocument) (answer question : List Char) :
    calculate_confidence [] answer question = 0 ∧
    ((∀ d ∈ docs, d.score.isSome) → docs ≠ [] →
      calculate_confidence docs answer question =
        clamp01 ((4 / 10 : ℚ) * claimRetrieval docs +
          (3 / 10 : ℚ) * claimCompleteness answer +
          (3 / 10 : ℚ) * claimOverlapJoined docs question -
          uncertaintyPenalty answer)) ∧
    (∀ d0 rest, docs = d0 :: rest → d0.score = none →
      calculate_confidence docs answer question =
        clamp01 ((4 / 10 : ℚ) * (8 / 10 : ℚ) +
          (3 / 10 : ℚ) * claimCompleteness answer +
          (3 / 10 : ℚ) * claimOverlapJoined docs question -
          uncertaintyPenalty answer)) := by
  refine ⟨rfl, ?_, ?_⟩
  · intro hall hne
    cases docs with
    | nil => exact absurd rfl hne
    | cons d0 rest =>
      rw [calc_conf_cons, if_pos (hall d0 (List.mem_cons_self d0 rest)),
        avgScores_eq_claimRetrieval _ hne hall, completenessScore_eq_claim,
        overlapScore_eq_claimJoined]
      congr 1
      ring
  · intro d0 rest hd hs
    subst hd
    rw [calc_conf_cons, hs]
    simp only [Option.isSome_none, Bool.false_eq_true, if_false]
    rw [completenessScore_eq_claim, overlapScore_eq_claimJoined]
    congr 1
    ring

unseal Rat.add Rat.mul Rat.inv Rat.sub in
/-- Claim C1, counterexample to the literal reading: with passages `"a"` and
`"b"` (no scores), empty answer and question `"ab"`, the code scores the
question word `"ab"` against the space-joined text `"a b"` (no overlap,
confidence 0.32), while the claim's plain concatenation `"ab"` would count
it (confidence 0.62). -/
theorem claim_C1_counterexample :
    calculate_confidence [⟨"a".toList, none⟩, ⟨"b".toList, none⟩] [] "ab".toList
      = 8 / 25 ∧
    claimConfidenceLiteral [⟨"a".toList, none⟩, ⟨"b".toList, none⟩] [] "ab".toList
      = 31 / 50 ∧
    calculate_confidence [⟨"a".toList, none⟩, ⟨"b".toList, none⟩] [] "ab".toList ≠
      claimConfidenceLiteral [⟨"a".toList, none⟩, ⟨"b".toList, none⟩] [] "ab".toList := by
  refine ⟨by decide, by decide, by decide⟩

unseal Rat.add Rat.mul Rat.inv Rat.sub in
/-- Witness for the amended claim C1 at concrete inputs: one passage with an
exposed score 1/2, and one passage without a score. -/
theorem claim_C1_witness :
    calculate_confidence [⟨"hello world".toList, some (1 / 2)⟩]
        "found it here ok".toList "hello".toList =
      clamp01 ((4 / 10 : ℚ) * claimRetrieval [⟨"hello world".toList, some (1 / 2)⟩] +
        (3 / 10 : ℚ) * claimCompleteness "found it here ok".toList +
        (3 / 10 : ℚ) * claimOverlapJoined [⟨"hello world".toList, some (1 / 2)⟩]
          "hello".toList -
        uncertaintyPenalty "found it here ok".toList) ∧
    calculate_confidence [⟨"no scores here".toList, none⟩] "xy".toList "q".toList =
      clamp01 ((4 / 10 : ℚ) * (8 / 10 : ℚ) +
        (3 / 10 : ℚ) * claimCompleteness "xy".toList +
        (3 / 10 : ℚ) * claimOverlapJoined [⟨"no scores here".toList, none⟩] "q".toList -
        uncertaintyPenalty "xy".toList) :=
  ⟨((claim_C1_amended [⟨"hello world".toList, some (1 / 2)⟩]
      "found it here ok".toList "hello".toList).2.1 (by decide) (by decide)),
   ((claim_C1_amended [⟨"no scores here".toList, none⟩]
      "xy".toList "q".toList).2.2 ⟨"no scores here".toList, none⟩ [] rfl rfl)⟩
/-- Claim C9: the Confidence Scorer is a pure deterministic function — equal
passage lists, answers and questions give equal results — and every result
lies in the closed interval `[0, 1]`. -/
theorem claim_C9 (docs docs2 : List LDocument)
    (answer answer2 question question2 : List Char)
    (hd : docs = docs2) (ha : answer = answer2) (hq : question = question2) :
    calculate_confidence docs answer question =
      calculate_confidence docs2 answer2 question2 ∧
    0 ≤ calculate_confidence docs answer question ∧
    calculate_confidence docs answer question ≤ 1 := by
  subst hd
  subst ha
  subst hq
  refine ⟨rfl, ?_, ?_⟩
  · cases docs with
    | nil => exact le_refl 0
    | cons d0 rest => rw [calc_conf_cons]; exact clamp01_nonneg _
  · cases docs with
    | nil => exact zero_le_one
    | cons d0 rest => rw [calc_conf_cons]; exact clamp01_le_one _

/-- Witness for claim C9 at a concrete input. -/
theorem claim_C9_witness :
    calculate_confidence [⟨"hi".toList, some (3 / 4)⟩] "an answer".toList "q".toList =
      calculate_confidence [⟨"hi".toList, some (3 / 4)⟩] "an answer".toList "q".toList ∧
    0 ≤ calculate_confidence [⟨"hi".toList, some (3 / 4)⟩] "an answer".toList "q".toList ∧
    calculate_confidence [⟨"hi".toList, some (3 / 4)⟩] "an answer".toList "q".toList ≤ 1 :=
  claim_C9 _ _ _ _ _ _ rfl rfl rfl

unseal Rat.add Rat.mul Rat.inv Rat.sub in
/-- Claim C8, counterexample: the answer `"date is unclear"` is verbatim
present in the retrieved passage, has length 15 ≥ 10, and retrieval uses the
0.8 default, yet the confidence is 0.065 < 0.3 because the answer contains
the uncertainty phrase `"unclear"` — a condition the claim omits. -/
theorem claim_C8_counterexample :
    isSubstr "date is unclear".toList
      (LDocument.page_content ⟨"date is unclear".toList, none⟩) = true ∧
    10 ≤ "date is unclear".toList.length ∧
    (⟨"date is unclear".toList, none⟩ : LDocument).score = none ∧
    calculate_confidence [⟨"date is unclear".toList, none⟩]
      "date is unclear".toList "zzz".toList = 13 / 200 ∧
    ¬ ((3 : ℚ) / 10 ≤ 13 / 200) := by
  refine ⟨by decide, by decide, rfl, by decide, by decide⟩

/-- Claim C8, amended: if retrieval returns a non-empty passage list whose
first passage exposes no similarity score (so the 0.8 default applies), the
answer is verbatim present in a retrieved passage with length at least 10,
and — the added condition — the answer contains no uncertainty phrase, then
the confidence is at least 0.3, the `passed` side of the guardrail. -/
theorem claim_C8_amended (docs : List LDocument) (answer question : List Char)
    (d0 : LDocument) (rest : List LDocument)
    (hdocs : docs = d0 :: rest) (hscore : d0.score = none)
    (hverbatim : ∃ d ∈ docs, isSubstr answer d.page_content = true)
    (hlen : 10 ≤ answer.length)
    (hno : (uncertainty_phrases.any fun p =>
      isSubstr p (answer.map Char.toLower)) = false) :
    (3 : ℚ) / 10 ≤ calculate_confidence docs answer question := by
  subst hdocs
  rw [calc_conf_cons, hscore]
  simp only [Option.isSome_none, Bool.false_eq_true, if_false]
  have hpen : uncertaintyPenalty answer = 0 := by
    unfold uncertaintyPenalty
    rw [hno]
    simp
  rw [hpen]
  refine le_clamp01 _ _ ?_ (by norm_num)
  have hc := completenessScore_nonneg answer
  have ho := overlapScore_nonneg (d0 :: rest) question
  nlinarith

unseal Rat.add Rat.mul Rat.inv Rat.sub in
/-- Witness for the amended claim C8 at a concrete input: the answer
`"rate is 500 usd"` is verbatim in the passage, has length 15, and contains
no uncertainty phrase. -/
theorem claim_C8_witness :
    (3 : ℚ) / 10 ≤ calculate_confidence
      [⟨"the rate is 500 usd total".toList, none⟩]
      "rate is 500 usd".toList "what is the rate".toList :=
  claim_C8_amended _ _ _ ⟨"the rate is 500 usd total".toList, none⟩ [] rfl rfl
    ⟨⟨"the rate is 500 usd total".toList, none⟩, by decide⟩ (by decide) (by decide)
theorem ask_question_low (d0 : LDocument) (rest : List LDocument)
    (qa_result : Except (List Char) (List Char × List LDocument))
    (question : List Char)
    (hc : calculate_confidence (askSourceDocs (d0 :: rest) qa_result)
      (askAnswer qa_result) question < CONFIDENCE_THRESHOLD) :
    ask_question (d0 :: rest) qa_result question =
      { answer := lowConfPrefix ++ askAnswer qa_result ++ lowConfSuffix,
        sources := ((askSourceDocs (d0 :: rest) qa_result).take 3).map sourcePreview,
        confidence := pyRound3 (calculate_confidence
          (askSourceDocs (d0 :: rest) qa_result) (askAnswer qa_result) question),
        metadata := GuardrailMeta.low_confidence (calculate_confidence
          (askSourceDocs (d0 :: rest) qa_result) (askAnswer qa_result) question) } := by
  unfold ask_question
  simp only [List.isEmpty_cons, Bool.false_eq_true, if_false]
  rw [if_pos hc]

theorem ask_question_passed (d0 : LDocument) (rest : List LDocument)
    (qa_result : Except (List Char) (List Char × List LDocument))
    (question : List Char)
    (hc : CONFIDENCE_THRESHOLD ≤ calculate_confidence
      (askSourceDocs (d0 :: rest) qa_result) (askAnswer qa_result) question) :
    ask_question (d0 :: rest) qa_result question =
      { answer := askAnswer qa_result,
        sources := ((askSourceDocs (d0 :: rest) qa_result).take 3).map sourcePreview,
        confidence := pyRound3 (calculate_confidence
          (askSourceDocs (d0 :: rest) qa_result) (askAnswer qa_result) question),
        metadata := GuardrailMeta.passed } := by
  unfold ask_question
  simp only [List.isEmpty_cons, Bool.false_eq_true, if_false]
  rw [if_neg (not_lt.mpr hc)]

/-- Claim C2: with a document loaded, every `/ask` request falls into
exactly one of the three guardrail outcomes, evaluated in order: empty
retrieval gives the fixed no-context response without invoking the language
model (the response does not depend on the model outcome at all); otherwise
confidence strictly below 0.3 rewrites the answer with the low-confidence
marker and disclaimer and records the original confidence; confidence at
least 0.3 — including exactly 0.3 — returns the answer unmodified with the
`passed` tag. -/
theorem claim_C2 (retrieved_docs : List LDocument)
    (qa_result : Except (List Char) (List Char × List LDocument))
    (question : List Char) :
    (retrieved_docs = [] →
      ask_question retrieved_docs qa_result question =
        { answer := noContextAnswer, sources := [], confidence := 0,
          metadata := GuardrailMeta.no_context_found } ∧
      ∀ qa2, ask_question retrieved_docs qa2 question =
        ask_question retrieved_docs qa_result question) ∧
    (∀ d0 rest, retrieved_docs = d0 :: rest →
      (calculate_confidence (askSourceDocs retrieved_docs qa_result)
          (askAnswer qa_result) question < CONFIDENCE_THRESHOLD →
        (ask_question retrieved_docs qa_result question).answer =
          lowConfPrefix ++ askAnswer qa_result ++ lowConfSuffix ∧
        (ask_question retrieved_docs qa_result question).metadata =
          GuardrailMeta.low_confidence (calculate_confidence
            (askSourceDocs retrieved_docs qa_result) (askAnswer qa_result)
            question)) ∧
      (CONFIDENCE_THRESHOLD ≤ calculate_confidence
          (askSourceDocs retrieved_docs qa_result) (askAnswer qa_result)
          question →
        (ask_question retrieved_docs qa_result question).answer =
          askAnswer qa_result ∧
        (ask_question retrieved_docs qa_result question).metadata =
          GuardrailMeta.passed)) ∧
    ((ask_question retrieved_docs qa_result question).metadata =
      GuardrailMeta.no_context_found ↔ retrieved_docs = []) := by
  refine ⟨?_, ?_, ?_⟩
  · rintro rfl
    exact ⟨rfl, fun qa2 => rfl⟩
  · rintro d0 rest rfl
    refine ⟨fun hc => ?_, fun hc => ?_⟩
    · rw [ask_question_low d0 rest qa_result question hc]
      exact ⟨rfl, rfl⟩
    · rw [ask_question_passed d0 rest qa_result question hc]
      exact ⟨rfl, rfl⟩
  · cases retrieved_docs with
    | nil =>
      constructor
      · intro _
        rfl
      · intro _
        rfl
    | cons d0 rest =>
      constructor
      · intro hmeta
        by_cases hc : calculate_confidence (askSourceDocs (d0 :: rest) qa_result)
            (askAnswer qa_result) question < CONFIDENCE_THRESHOLD
        · rw [ask_question_low d0 rest qa_result question hc] at hmeta
          exact absurd hmeta (by simp)
        · rw [ask_question_passed d0 rest qa_result question (not_lt.mp hc)] at hmeta
          exact absurd hmeta (by simp)
      · intro h
        exact absurd h (by simp)

unseal Rat.add Rat.mul Rat.inv Rat.sub in
/-- Witness for claim C2: a request whose computed confidence is exactly
0.3 takes the `passed` branch with the answer unmodified. -/
theorem claim_C2_witness :
    calculate_confidence [⟨"hi".toList, some (3 / 4)⟩] [] [] = 3 / 10 ∧
    (ask_question [⟨"hi".toList, none⟩]
        (Except.ok ([], [⟨"hi".toList, some (3 / 4)⟩])) []).answer = [] ∧
    (ask_question [⟨"hi".toList, none⟩]
        (Except.ok ([], [⟨"hi".toList, some (3 / 4)⟩])) []).metadata =
      GuardrailMeta.passed := by
  have h := ((claim_C2 [⟨"hi".toList, none⟩]
      (Except.ok ([], [⟨"hi".toList, some (3 / 4)⟩])) []).2.1
      ⟨"hi".toList, none⟩ [] rfl).2 (by decide)
  exact ⟨by decide, h.1, h.2⟩

/-- Claim C4: when the language-model invocation fails, `/ask` does not
propagate the error (the handler still produces an `AnswerResponse`): the
answer becomes the synthetic string embedding the failure reason, the
originally retrieved passages are the source documents (so the previews
come from them), and confidence scoring and the guardrail run on the
synthetic answer. -/
theorem claim_C4 (retrieved_docs : List LDocument) (e question : List Char)
    (d0 : LDocument) (rest : List LDocument)
    (hdocs : retrieved_docs = d0 :: rest) :
    askAnswer (Except.error e) = errorAnswerPrefix ++ e ∧
    askSourceDocs retrieved_docs (Except.error e) = retrieved_docs ∧
    (ask_question retrieved_docs (Except.error e) question).sources =
      (retrieved_docs.take 3).map sourcePreview ∧
    (ask_question retrieved_docs (Except.error e) question).confidence =
      pyRound3 (calculate_confidence retrieved_docs (errorAnswerPrefix ++ e)
        question) ∧
    (calculate_confidence retrieved_docs (errorAnswerPrefix ++ e) question <
        CONFIDENCE_THRESHOLD →
      (ask_question retrieved_docs (Except.error e) question).answer =
        lowConfPrefix ++ (errorAnswerPrefix ++ e) ++ lowConfSuffix ∧
      (ask_question retrieved_docs (Except.error e) question).metadata =
        GuardrailMeta.low_confidence (calculate_confidence retrieved_docs
          (errorAnswerPrefix ++ e) question)) ∧
    (CONFIDENCE_THRESHOLD ≤ calculate_confidence retrieved_docs
        (errorAnswerPrefix ++ e) question →
      (ask_question retrieved_docs (Except.error e) question).answer =
        errorAnswerPrefix ++ e ∧
      (ask_question retrieved_docs (Except.error e) question).metadata =
        GuardrailMeta.passed) := by
  subst hdocs
  refine ⟨rfl, rfl, ?_, ?_, fun hc => ?_, fun hc => ?_⟩
  · by_cases hc : calculate_confidence (d0 :: rest) (errorAnswerPrefix ++ e)
        question < CONFIDENCE_THRESHOLD
    · rw [ask_question_low d0 rest (Except.error e) question hc]
      rfl
    · rw [ask_question_passed d0 rest (Except.error e) question (not_lt.mp hc)]
      rfl
  · by_cases hc2 : calculate_confidence (d0 :: rest) (errorAnswerPrefix ++ e)
        question < CONFIDENCE_THRESHOLD
    · rw [ask_question_low d0 rest (Except.error e) question hc2]
      rfl
    · rw [ask_question_passed d0 rest (Except.error e) question (not_lt.mp hc2)]
      rfl
  · rw [ask_question_low d0 rest (Except.error e) question hc]
    exact ⟨rfl, rfl⟩
  · rw [ask_question_passed d0 rest (Except.error e) question hc]
    exact ⟨rfl, rfl⟩

unseal Rat.add Rat.mul Rat.inv Rat.sub in
/-- Witness for claim C4 at a concrete failing invocation. -/
theorem claim_C4_witness :
    (ask_question [⟨"error handling document text".toList, none⟩]
        (Except.error "boom".toList) "error".toList).sources =
      ([(⟨"error handling document text".toList, none⟩ : LDocument)].take 3).map
        sourcePreview ∧
    (ask_question [⟨"error handling document text".toList, none⟩]
        (Except.error "boom".toList) "error".toList).answer =
      errorAnswerPrefix ++ "boom".toList := by
  have h := claim_C4 [⟨"error handling document text".toList, none⟩]
    "boom".toList "error".toList ⟨"error handling document text".toList, none⟩ [] rfl
  exact ⟨h.2.2.1, (h.2.2.2.2.2 (by decide)).1⟩
/-- Claim C5: a failed upload — unsupported extension or load failure, the
two 400 paths — leaves the process-wide state exactly as it was; only a
successful upload replaces it, and the replacement is wholesale: the new
state is determined by the request alone, independent of the prior state,
with the new collection being the chunks of the newly loaded document. -/
theorem claim_C5 (st : IndexState) (filename : List Char)
    (load_result : Except (List Char) (List (List Char))) :
    (∀ err, (upload_document st filename load_result).1 = Except.error err →
      (upload_document st filename load_result).2 = st) ∧
    (∀ ok, (upload_document st filename load_result).1 = Except.ok ok →
      ∃ documents, load_result = Except.ok documents ∧
        (upload_document st filename load_result).2 =
          ⟨some (chunk_document documents), some filename⟩ ∧
        ok = ⟨filename, (chunk_document documents).length,
          ((chunk_document documents).map List.length).sum⟩) ∧
    (∀ st2, (upload_document st filename load_result).1 =
        (upload_document st2 filename load_result).1 ∧
      (∀ ok, (upload_document st filename load_result).1 = Except.ok ok →
        (upload_document st filename load_result).2 =
          (upload_document st2 filename load_result).2)) := by
  refine ⟨?_, ?_, ?_⟩
  · intro err herr
    unfold upload_document at herr ⊢
    by_cases hext : fileExtOf filename ∈ allowed_extensions
    · rw [if_pos hext] at herr ⊢
      cases load_result with
      | error e => rfl
      | ok docs => simp at herr
    · rw [if_neg hext]
  · intro ok hok
    unfold upload_document at hok ⊢
    by_cases hext : fileExtOf filename ∈ allowed_extensions
    · rw [if_pos hext] at hok ⊢
      cases load_result with
      | error e => simp at hok
      | ok docs =>
        refine ⟨docs, rfl, rfl, ?_⟩
        exact (Except.ok.inj hok).symm
    · rw [if_neg hext] at hok
      simp at hok
  · intro st2
    constructor
    · unfold upload_document
      by_cases hext : fileExtOf filename ∈ allowed_extensions
      · rw [if_pos hext, if_pos hext]
        cases load_result <;> rfl
      · rw [if_neg hext, if_neg hext]
    · intro ok hok
      unfold upload_document at hok ⊢
      by_cases hext : fileExtOf filename ∈ allowed_extensions
      · simp only [if_pos hext] at hok ⊢
        cases load_result with
        | error e => simp at hok
        | ok docs => rfl
      · rw [if_neg hext] at hok
        simp at hok

/-- Witness for claim C5: a rejected `.csv` upload and a failed load leave
a concrete prior state untouched; a successful `.txt` upload installs the
new collection. -/
theorem claim_C5_witness :
    (upload_document ⟨some [['x']], some "old.pdf".toList⟩ "bad.csv".toList
      (Except.ok [[]])).2 = ⟨some [['x']], some "old.pdf".toList⟩ ∧
    (upload_document ⟨some [['x']], some "old.pdf".toList⟩ "new.txt".toList
      (Except.error "bad file".toList)).2 = ⟨some [['x']], some "old.pdf".toList⟩ ∧
    (upload_document ⟨some [['x']], some "old.pdf".toList⟩ "doc.txt".toList
      (Except.ok ["hello".toList])).2 =
      ⟨some (chunk_document ["hello".toList]), some "doc.txt".toList⟩ := by
  refine ⟨(claim_C5 _ _ _).1 UploadError.unsupported_type rfl,
    (claim_C5 _ _ _).1 (UploadError.load_error "bad file".toList) rfl, ?_⟩
  obtain ⟨docs, hdocs, hstate, -⟩ := (claim_C5 ⟨some [['x']], some "old.pdf".toList⟩
    "doc.txt".toList (Except.ok ["hello".toList])).2.1
    ⟨"doc.txt".toList, (chunk_document ["hello".toList]).length,
      ((chunk_document ["hello".toList]).map List.length).sum⟩ rfl
  have hd : docs = ["hello".toList] := (Except.ok.inj hdocs).symm
  rw [hd] at hstate
  exact hstate

theorem upload_fst_const (st st2 : IndexState) (fn : List Char)
    (lr : Except (List Char) (List (List Char))) :
    (upload_document st fn lr).1 = (upload_document st2 fn lr).1 :=
  ((claim_C5 st fn lr).2.2 st2).1

theorem stepState_bits (st0 : IndexState) (e : Event) :
    (stepState st0 e).vector_store.isSome =
      (st0.vector_store.isSome || uploadEventOk e) ∧
    (stepState st0 e).current_document_name.isSome =
      (st0.current_document_name.isSome || uploadEventOk e) := by
  cases e with
  | uploadReq fn lr =>
    show ((upload_document st0 fn lr).2.vector_store.isSome = _) ∧
      ((upload_document st0 fn lr).2.current_document_name.isSome = _)
    have hconst : uploadEventOk (Event.uploadReq fn lr) =
        exceptIsOkB (upload_document st0 fn lr).1 := by
      show exceptIsOkB (upload_document initState fn lr).1 = _
      rw [upload_fst_const initState st0 fn lr]
    rw [hconst]
    unfold upload_document
    by_cases hext : fileExtOf fn ∈ allowed_extensions
    · rw [if_pos hext]
      cases lr with
      | error e => simp [exceptIsOkB]
      | ok docs => simp [exceptIsOkB]
    · rw [if_neg hext]
      simp [exceptIsOkB]
  | askReq q r qa => simp [stepState, uploadEventOk]
  | extractReq llm => simp [stepState, uploadEventOk]
  | statusReq => simp [stepState, uploadEventOk]

theorem runAux_bits (es : List Event) (st0 : IndexState) :
    ((es.foldl stepState st0).vector_store.isSome =
      (st0.vector_store.isSome || es.any uploadEventOk)) ∧
    ((es.foldl stepState st0).current_document_name.isSome =
      (st0.current_document_name.isSome || es.any uploadEventOk)) := by
  induction es generalizing st0 with
  | nil => simp
  | cons e rest ih =>
    simp only [List.foldl_cons, List.any_cons]
    obtain ⟨ih1, ih2⟩ := ih (stepState st0 e)
    obtain ⟨hs1, hs2⟩ := stepState_bits st0 e
    rw [ih1, ih2, hs1, hs2, Bool.or_assoc, Bool.or_assoc]
    exact ⟨rfl, rfl⟩

theorem runEvents_bits (es : List Event) :
    (runEvents es).vector_store.isSome = es.any uploadEventOk ∧
    (runEvents es).current_document_name.isSome = es.any uploadEventOk := by
  have h := runAux_bits es initState
  simpa [runEvents, initState] using h

/-- Claim C6: from process start, after any sequence of requests the two
globals are Some together or None together; the vector store is populated
exactly when some successful upload occurred; `/ask` and `/extract` succeed
exactly in that case and otherwise reject with the 400 "no document
uploaded" detail; and `/status` reports `document_loaded` and
`vector_store_initialized` consistently with that same condition. -/
theorem claim_C6 (es : List Event) :
    ((runEvents es).vector_store.isSome =
      (runEvents es).current_document_name.isSome) ∧
    ((runEvents es).vector_store.isSome = es.any uploadEventOk) ∧
    (∀ retrieved_docs qa_result question,
      exceptIsOkB (ask_endpoint (runEvents es) retrieved_docs qa_result question) =
        es.any uploadEventOk) ∧
    (es.any uploadEventOk = false →
      ∀ retrieved_docs qa_result question,
        ask_endpoint (runEvents es) retrieved_docs qa_result question =
          Except.error noDocDetail) ∧
    (∀ llm_result json_loads,
      exceptIsOkB (extract_endpoint (runEvents es) llm_result json_loads) =
        es.any uploadEventOk) ∧
    (es.any uploadEventOk = false →
      ∀ llm_result json_loads,
        extract_endpoint (runEvents es) llm_result json_loads =
          Except.error noDocDetail) ∧
    (get_status (runEvents es)).document_loaded = es.any uploadEventOk ∧
    (get_status (runEvents es)).vector_store_initialized = es.any uploadEventOk := by
  obtain ⟨hv, hn⟩ := runEvents_bits es
  refine ⟨hv.trans hn.symm, hv, ?_, ?_, ?_, ?_, hn, hv⟩
  · intro retrieved_docs qa_result question
    unfold ask_endpoint
    cases hcase : (runEvents es).vector_store with
    | none =>
      rw [hcase] at hv
      simp [exceptIsOkB, ← hv]
    | some v =>
      rw [hcase] at hv
      simp [exceptIsOkB, ← hv]
  · intro hfalse retrieved_docs qa_result question
    unfold ask_endpoint
    cases hcase : (runEvents es).vector_store with
    | none => rfl
    | some v =>
      rw [hcase] at hv
      rw [hfalse] at hv
      simp at hv
  · intro llm_result json_loads
    unfold extract_endpoint
    cases hcase : (runEvents es).vector_store with
    | none =>
      rw [hcase] at hv
      simp [exceptIsOkB, ← hv]
    | some v =>
      rw [hcase] at hv
      simp [exceptIsOkB, ← hv]
  · intro hfalse llm_result json_loads
    unfold extract_endpoint
    cases hcase : (runEvents es).vector_store with
    | none => rfl
    | some v =>
      rw [hcase] at hv
      rw [hfalse] at hv
      simp at hv

/-- Witness for claim C6: before any upload both endpoints reject with the
400 detail, and after one successful upload `/status` reports a loaded
document. -/
theorem claim_C6_witness :
    (runEvents []).vector_store.isSome =
      (runEvents []).current_document_name.isSome ∧
    ask_endpoint (runEvents []) [] (Except.error []) [] =
      Except.error noDocDetail ∧
    extract_endpoint (runEvents []) (Except.error []) (fun _ => none) =
      Except.error noDocDetail ∧
    (get_status (runEvents
      [Event.uploadReq "a.txt".toList (Except.ok ["hi".toList])])).document_loaded
      = true := by
  refine ⟨(claim_C6 []).1,
    (claim_C6 []).2.2.2.1 rfl [] (Except.error []) [],
    (claim_C6 []).2.2.2.2.2.1 rfl (Except.error []) (fun _ => none),
    ((claim_C6 [Event.uploadReq "a.txt".toList
      (Except.ok ["hi".toList])]).2.2.2.2.2.2.1).trans (by decide)⟩
theorem pySplit_ne_nil (sep : Char) (cs : List Char) : pySplit sep cs ≠ [] := by
  induction cs with
  | nil => simp [pySplit]
  | cons c cs ih =>
    unfold pySplit
    by_cases h : c = sep
    · rw [if_pos h]
      simp
    · rw [if_neg h]
      cases hps : pySplit sep cs with
      | nil => simp
      | cons t ts => simp

theorem pySplit_no_sep (sep : Char) (cs : List Char) (h : sep ∉ cs) :
    pySplit sep cs = [cs] := by
  induction cs with
  | nil => rfl
  | cons c cs ih =>
    unfold pySplit
    rw [if_neg (by intro hc; subst hc; exact h (List.mem_cons_self c cs))]
    rw [ih (fun hm => h (List.mem_cons_of_mem c hm))]

theorem pySplit_mem_sep (sep : Char) (cs : List Char) (h : sep ∈ cs) :
    2 ≤ (pySplit sep cs).length := by
  induction cs with
  | nil => cases h
  | cons c cs ih =>
    unfold pySplit
    by_cases hc : c = sep
    · rw [if_pos hc]
      cases hps : pySplit sep cs with
      | nil => exact absurd hps (pySplit_ne_nil sep cs)
      | cons t ts => simp
    · rw [if_neg hc]
      have hmem : sep ∈ cs := by
        rcases List.mem_cons.mp h with h1 | h1
        · exact absurd h1.symm hc
        · exact h1
      have h2 := ih hmem
      cases hps : pySplit sep cs with
      | nil => exact absurd hps (pySplit_ne_nil sep cs)
      | cons t ts =>
        rw [hps] at h2
        simpa using h2

theorem takeWhile_append_of_forall {p : Char → Bool} (l l2 : List Char)
    (h : ∀ x ∈ l, p x = true) :
    (l ++ l2).takeWhile p = l ++ l2.takeWhile p := by
  induction l with
  | nil => rfl
  | cons c cs ih =>
    rw [List.cons_append, List.takeWhile_cons_of_pos (h c (List.mem_cons_self c cs)),
      ih (fun x hx => h x (List.mem_cons_of_mem c hx)), List.cons_append]

theorem takeWhile_append_of_exists {p : Char → Bool} (l l2 : List Char)
    (h : ∃ x ∈ l, p x = false) :
    (l ++ l2).takeWhile p = l.takeWhile p := by
  induction l with
  | nil =>
    obtain ⟨x, hx, -⟩ := h
    cases hx
  | cons c cs ih =>
    by_cases hc : p c = true
    · rw [List.cons_append, List.takeWhile_cons_of_pos hc,
        List.takeWhile_cons_of_pos hc]
      congr 1
      apply ih
      obtain ⟨x, hx, hpx⟩ := h
      rcases List.mem_cons.mp hx with h1 | h1
      · subst h1
        exact absurd hc (by rw [hpx]; simp)
      · exact ⟨x, h1, hpx⟩
    · rw [List.cons_append, List.takeWhile_cons_of_neg hc,
        List.takeWhile_cons_of_neg hc]

theorem takeWhile_of_forall {p : Char → Bool} (l : List Char)
    (h : ∀ x ∈ l, p x = true) : l.takeWhile p = l := by
  have h2 := takeWhile_append_of_forall l [] h
  simpa using h2

theorem pySplit_getLast_eq (cs : List Char) :
    (pySplit dotChar cs).getLastD [] =
      (cs.reverse.takeWhile fun c => c != dotChar).reverse := by
  induction cs with
  | nil => rfl
  | cons c cs ih =>
    unfold pySplit
    by_cases hc : c = dotChar
    · rw [if_pos hc]
      subst hc
      rw [List.reverse_cons]
      by_cases hd : dotChar ∈ cs
      · rw [@takeWhile_append_of_exists (fun ch => ch != dotChar) cs.reverse [dotChar]
          ⟨dotChar, List.mem_reverse.mpr hd, by simp⟩]
        rw [List.getLastD_cons, ih]
      · have hall : ∀ x ∈ cs.reverse, (fun ch => ch != dotChar) x = true := by
          intro x hx
          have hne : x ≠ dotChar := fun he => hd (he ▸ List.mem_reverse.mp hx)
          simp [hne]
        rw [@takeWhile_append_of_forall (fun ch => ch != dotChar) cs.reverse [dotChar]
          hall]
        have h1 : (List.takeWhile (fun ch => ch != dotChar) [dotChar]) = [] := by simp
        rw [h1, List.append_nil, List.getLastD_cons, pySplit_no_sep dotChar cs hd]
        simp
    · rw [if_neg hc]
      cases hps : pySplit dotChar cs with
      | nil => exact absurd hps (pySplit_ne_nil dotChar cs)
      | cons t ts =>
        rw [List.reverse_cons]
        cases ts with
        | nil =>
          have hd : dotChar ∉ cs := by
            intro hmem
            have h2 := pySplit_mem_sep dotChar cs hmem
            rw [hps] at h2
            simp at h2
          have ht : t = cs := by
            have h3 := pySplit_no_sep dotChar cs hd
            rw [hps] at h3
            exact (List.cons.inj h3).1
          subst ht
          have hall : ∀ x ∈ t.reverse, (fun ch => ch != dotChar) x = true := by
            intro x hx
            have hne : x ≠ dotChar := fun he => hd (he ▸ List.mem_reverse.mp hx)
            simp [hne]
          rw [@takeWhile_append_of_forall (fun ch => ch != dotChar) t.reverse [c] hall]
          have h1 : (List.takeWhile (fun ch => ch != dotChar) [c]) = [c] := by
            simp [hc]
          rw [h1]
          simp
        | cons t2 ts2 =>
          have hd : dotChar ∈ cs := by
            by_contra hd
            have h3 := pySplit_no_sep dotChar cs hd
            rw [hps] at h3
            simp at h3
          rw [@takeWhile_append_of_exists (fun ch => ch != dotChar) cs.reverse [c]
            ⟨dotChar, List.mem_reverse.mpr hd, by simp⟩]

          have hd2 := ih
          rw [hps] at hd2
          rw [← hd2]
          simp only [List.getLastD_cons]
theorem fileExtOf_eq_afterLastDotLower (filename : List Char) :
    fileExtOf filename = afterLastDotLower filename := by
  unfold fileExtOf afterLastDotLower
  rw [pySplit_getLast_eq]

/-- Claim C10: the upload extension check uses the lowercased text after the
last dot of the filename (the whole lowercased name when there is no dot),
rejecting with the 400 `unsupported_type` error exactly when that text is
not one of pdf, docx, doc, txt; consequently the dotless filenames `pdf`,
`docx`, `doc`, `txt` are accepted and dispatched by `load_document` to the
loader of that format, while every other dotless filename is rejected. -/
theorem claim_C10 (filename : List Char) (st : IndexState)
    (load_result : Except (List Char) (List (List Char))) :
    fileExtOf filename = afterLastDotLower filename ∧
    ((upload_document st filename load_result).1 =
        Except.error UploadError.unsupported_type ↔
      afterLastDotLower filename ∉ allowed_extensions) ∧
    (dotChar ∉ filename → fileExtOf filename = filename.map Char.toLower) ∧
    fileExtOf "pdf".toList = "pdf".toList ∧
    load_document_loader "pdf".toList = Except.ok DocLoader.pyPDFLoader ∧
    fileExtOf "docx".toList = "docx".toList ∧
    load_document_loader "docx".toList = Except.ok DocLoader.docx2txtLoader ∧
    fileExtOf "doc".toList = "doc".toList ∧
    load_document_loader "doc".toList = Except.ok DocLoader.docx2txtLoader ∧
    fileExtOf "txt".toList = "txt".toList ∧
    load_document_loader "txt".toList = Except.ok DocLoader.textLoader ∧
    (upload_document st "data".toList load_result).1 =
      Except.error UploadError.unsupported_type := by
  refine ⟨fileExtOf_eq_afterLastDotLower filename, ?_, ?_, rfl, rfl, rfl, rfl,
    rfl, rfl, rfl, rfl, ?_⟩
  · rw [← fileExtOf_eq_afterLastDotLower]
    unfold upload_document
    by_cases hext : fileExtOf filename ∈ allowed_extensions
    · rw [if_pos hext]
      constructor
      · intro h
        cases load_result with
        | error e => simp at h
        | ok docs => simp at h
      · intro h
        exact absurd hext h
    · rw [if_neg hext]
      exact ⟨fun _ => hext, fun _ => rfl⟩
  · intro hdot
    unfold fileExtOf
    rw [pySplit_no_sep dotChar filename hdot]
    rfl
  · unfold upload_document
    rw [if_neg (by decide)]

/-- Witness for claim C10 at concrete filenames: an uppercase dotted name,
a rejected `.csv` name, and the dotless name `pdf`. -/
theorem claim_C10_witness :
    fileExtOf "REPORT.PDF".toList = afterLastDotLower "REPORT.PDF".toList ∧
    ((upload_document initState "notes.csv".toList (Except.ok [])).1 =
        Except.error UploadError.unsupported_type ↔
      afterLastDotLower "notes.csv".toList ∉ allowed_extensions) ∧
    fileExtOf "pdf".toList = "pdf".toList.map Char.toLower :=
  ⟨(claim_C10 "REPORT.PDF".toList initState (Except.ok [])).1,
   (claim_C10 "notes.csv".toList initState (Except.ok [])).2.1,
   (claim_C10 "pdf".toList initState (Except.ok [])).2.2.1 (by decide)⟩
theorem firstIdxOf_spec (c : Char) (cs : List Char) (i : ℕ)
    (h : firstIdxOf c cs = some i) :
    i < cs.length ∧ (cs.drop i).head? = some c ∧ c ∉ cs.take i := by
  induction cs generalizing i with
  | nil => cases h
  | cons d ds ih =>
    unfold firstIdxOf at h
    by_cases hd : d = c
    · rw [if_pos hd] at h
      injection h with h
      subst h
      subst hd
      exact ⟨by simp, rfl, by simp⟩
    · rw [if_neg hd] at h
      cases hfi : firstIdxOf c ds with
      | none =>
        rw [hfi] at h
        cases h
      | some j =>
        rw [hfi] at h
        injection h with h
        subst h
        obtain ⟨h1, h2, h3⟩ := ih j hfi
        refine ⟨by simpa using Nat.succ_lt_succ h1, h2, ?_⟩
        rw [List.take_succ_cons]
        intro hmem
        rcases List.mem_cons.mp hmem with h4 | h4
        · exact hd h4.symm
        · exact h3 h4

theorem braceSearch_some_spec (cs m : List Char) (h : braceSearch cs = some m) :
    ∃ pre post, cs = pre ++ m ++ post ∧ m.head? = some openBraceChar ∧
      m.getLast? = some closeBraceChar ∧ openBraceChar ∉ pre ∧
      closeBraceChar ∉ post := by
  unfold braceSearch at h
  cases hf : firstIdxOf openBraceChar cs with
  | none =>
    rw [hf] at h
    cases h
  | some i =>
    cases hl : lastIdxOf closeBraceChar cs with
    | none =>
      rw [hf, hl] at h
      cases h
    | some j =>
      rw [hf, hl] at h
      have h2 : (if i < j then some ((cs.drop i).take (j - i + 1)) else none) =
          some m := h
      by_cases hij : i < j
      · rw [if_pos hij] at h2
        injection h2 with h2
        subst h2
        unfold lastIdxOf at hl
        cases hfr : firstIdxOf closeBraceChar cs.reverse with
        | none =>
          rw [hfr] at hl
          cases hl
        | some ir =>
          rw [hfr] at hl
          injection hl with hl
          have hl2 : cs.length - 1 - ir = j := hl
          obtain ⟨hi_lt, hi_head, hi_pre⟩ := firstIdxOf_spec _ _ _ hf
          obtain ⟨hir_lt, hir_head, hir_pre⟩ := firstIdxOf_spec _ _ _ hfr
          rw [List.length_reverse] at hir_lt
          refine ⟨cs.take i, cs.drop (j + 1), ?_, ?_, ?_, hi_pre, ?_⟩
          · have e1 : (cs.drop i).take (j - i + 1) = (cs.take (j + 1)).drop i := by
              rw [List.drop_take]
              congr 1
              omega
            calc cs = cs.take (j + 1) ++ cs.drop (j + 1) :=
                  (List.take_append_drop _ _).symm
              _ = ((cs.take (j + 1)).take i ++ (cs.take (j + 1)).drop i) ++
                  cs.drop (j + 1) := by
                  have hsplit := List.take_append_drop i (cs.take (j + 1))
                  rw [hsplit]
              _ = (cs.take i ++ (cs.take (j + 1)).drop i) ++ cs.drop (j + 1) := by
                  rw [List.take_take, Nat.min_eq_left (by omega)]
              _ = cs.take i ++ (cs.drop i).take (j - i + 1) ++ cs.drop (j + 1) := by
                  rw [e1]
          · rw [List.head?_take, if_neg (by omega)]
            exact hi_head
          · rw [← List.head?_reverse, List.reverse_take, List.reverse_drop,
              List.length_drop]
            rw [show cs.length - i - (j - i + 1) = ir from by omega]
            rw [List.drop_take, List.head?_take, if_neg (by omega)]
            exact hir_head
          · intro hmem
            apply hir_pre
            rw [show ir = cs.length - (j + 1) from by omega, ← List.reverse_drop]
            exact List.mem_reverse.mpr hmem
      · rw [if_neg hij] at h2
        cases h2

/-- Claim C3: the extraction parser first takes the greedy dot-all brace
match — the span from the first opening brace to the last closing brace,
with no opening brace before it and no closing brace after it — and decodes
that substring; when no such match exists it decodes the entire reply; and
on any failure whatsoever (model invocation error, no valid JSON in the
selected text, schema mismatch) `/extract` returns the record with all 11
fields null instead of propagating an error. -/
theorem claim_C3 (llm_result : Except (List Char) (List Char))
    (json_loads : List Char → Option Json) :
    (∀ e, llm_result = Except.error e →
      extract_structured_data llm_result json_loads = {}) ∧
    (∀ text, llm_result = Except.ok text →
      (∀ m, braceSearch text = some m →
        extractTarget text = m ∧
        ∃ pre post, text = pre ++ m ++ post ∧ m.head? = some openBraceChar ∧
          m.getLast? = some closeBraceChar ∧ openBraceChar ∉ pre ∧
          closeBraceChar ∉ post) ∧
      (braceSearch text = none → extractTarget text = text) ∧
      (json_loads (extractTarget text) = none →
        extract_structured_data llm_result json_loads = {}) ∧
      (∀ j, json_loads (extractTarget text) = some j →
        (∀ err, structured_data_of_json j = Except.error err →
          extract_structured_data llm_result json_loads = {}) ∧
        (∀ sd, structured_data_of_json j = Except.ok sd →
          extract_structured_data llm_result json_loads = sd))) ∧
    (({} : StructuredData).shipment_id = none ∧
      ({} : StructuredData).shipper = none ∧
      ({} : StructuredData).consignee = none ∧
      ({} : StructuredData).pickup_datetime = none ∧
      ({} : StructuredData).delivery_datetime = none ∧
      ({} : StructuredData).equipment_type = none ∧
      ({} : StructuredData).mode = none ∧
      ({} : StructuredData).rate = none ∧
      ({} : StructuredData).currency = none ∧
      ({} : StructuredData).weight = none ∧
      ({} : StructuredData).carrier_name = none) := by
  refine ⟨?_, ?_, rfl, rfl, rfl, rfl, rfl, rfl, rfl, rfl, rfl, rfl, rfl⟩
  · rintro e rfl
    rfl
  · rintro text rfl
    refine ⟨?_, ?_, ?_, ?_⟩
    · intro m hm
      refine ⟨?_, braceSearch_some_spec text m hm⟩
      unfold extractTarget
      rw [hm]
    · intro hm
      unfold extractTarget
      rw [hm]
    · intro hnone
      show (match json_loads (extractTarget text) with
        | none => ({} : StructuredData)
        | some jj =>
          match structured_data_of_json jj with
          | Except.error _ => ({} : StructuredData)
          | Except.ok sd => sd) = {}
      rw [hnone]
    · intro j hj
      have hstep : extract_structured_data (Except.ok text) json_loads =
          (match structured_data_of_json j with
            | Except.error _ => ({} : StructuredData)
            | Except.ok sd => sd) := by
        show (match json_loads (extractTarget text) with
          | none => ({} : StructuredData)
          | some jj =>
            match structured_data_of_json jj with
            | Except.error _ => ({} : StructuredData)
            | Except.ok sd => sd) = _
        rw [hj]
      constructor
      · intro err herr
        rw [hstep, herr]
      · intro sd hsd
        rw [hstep, hsd]

/-- Witness for claim C3: a reply with prose around the braces decodes the
brace-matched substring into a record, and a failing model invocation gives
the all-null record. -/
theorem claim_C3_witness :
    extract_structured_data (Except.error "model down".toList)
      (fun _ => none) = {} ∧
    extract_structured_data
      (Except.ok ("Sure! ".toList ++ [openBraceChar] ++ "ok".toList ++
        [closeBraceChar]))
      (fun t =>
        if t = [openBraceChar] ++ "ok".toList ++ [closeBraceChar] then
          some (Json.obj [("shipment_id".toList, Json.str "X123".toList)])
        else none) =
      { shipment_id := some "X123".toList } := by
  refine ⟨(claim_C3 _ (fun _ => none)).1 "model down".toList rfl, ?_⟩
  have h := ((claim_C3
      (Except.ok ("Sure! ".toList ++ [openBraceChar] ++ "ok".toList ++
        [closeBraceChar]))
      (fun t =>
        if t = [openBraceChar] ++ "ok".toList ++ [closeBraceChar] then
          some (Json.obj [("shipment_id".toList, Json.str "X123".toList)])
        else none)).2.1 _ rfl).2.2.2
    (Json.obj [("shipment_id".toList, Json.str "X123".toList)]) rfl
  exact h.2 _ rfl
theorem chunkAux_cons (n : ℕ) (cs : List Char) (h : cs.length ≤ n) :
    ∃ t, chunkAux n cs = cs.take 500 :: t := by
  cases n with
  | zero =>
    have hnil : cs = [] := List.length_eq_zero.mp (Nat.le_zero.mp h)
    subst hnil
    exact ⟨[], rfl⟩
  | succ n =>
    unfold chunkAux
    by_cases h5 : cs.length ≤ 500
    · rw [if_pos h5, List.take_of_length_le h5]
      exact ⟨[], rfl⟩
    · rw [if_neg h5]
      exact ⟨_, rfl⟩

theorem chunkAux_spec (n : ℕ) : ∀ cs : List Char, cs.length ≤ n →
    concatMinusOverlap (chunkAux n cs) = cs ∧
    (∀ c ∈ chunkAux n cs, c.length ≤ 500) ∧
    (∀ p ∈ consecPairs (chunkAux n cs),
      p.1.length = 500 ∧ p.2.take 100 = p.1.drop 400) := by
  induction n with
  | zero =>
    intro cs hcs
    have hnil : cs = [] := List.length_eq_zero.mp (Nat.le_zero.mp hcs)
    subst hnil
    refine ⟨rfl, ?_, ?_⟩
    · intro c hc
      rcases List.mem_cons.mp hc with h1 | h1
      · subst h1
        simp
      · cases h1
    · intro p hp
      cases hp
  | succ n ih =>
    intro cs hcs
    unfold chunkAux
    by_cases h5 : cs.length ≤ 500
    · rw [if_pos h5]
      refine ⟨by simp [concatMinusOverlap], ?_, ?_⟩
      · intro c hc
        rcases List.mem_cons.mp hc with h1 | h1
        · subst h1
          exact h5
        · cases h1
      · intro p hp
        cases hp
    · rw [if_neg h5]
      have hlen : (cs.drop 400).length ≤ n := by
        rw [List.length_drop]
        omega
      obtain ⟨ih1, ih2, ih3⟩ := ih (cs.drop 400) hlen
      obtain ⟨t, ht⟩ := chunkAux_cons n (cs.drop 400) hlen
      refine ⟨?_, ?_, ?_⟩
      · show cs.take 500 ++
          ((chunkAux n (cs.drop 400)).map fun d => d.drop 100).flatten = cs
        rw [ht] at ih1 ⊢
        simp only [List.map_cons, List.flatten_cons]
        have ih1' : (cs.drop 400).take 500 ++
            (t.map fun d => d.drop 100).flatten = cs.drop 400 := ih1
        have hlen2 : 100 ≤ ((cs.drop 400).take 500).length := by
          rw [List.length_take, List.length_drop]
          omega
        rw [← List.drop_append_of_le_length hlen2, ih1', List.drop_drop]
        rw [show (100 : ℕ) + 400 = 500 from rfl, List.take_append_drop]
      · intro c hc
        rcases List.mem_cons.mp hc with h1 | h1
        · subst h1
          rw [List.length_take]
          omega
        · exact ih2 c h1
      · intro p hp
        rw [ht] at hp
        rcases List.mem_cons.mp hp with h1 | h1
        · subst h1
          constructor
          · rw [List.length_take]
            omega
          · show ((cs.drop 400).take 500).take 100 = (cs.take 500).drop 400
            rw [List.take_take, Nat.min_eq_left (by omega), List.drop_take]
        · rw [← ht] at h1
          exact ih3 p h1

/-- Claim C7 (spec-modelled Chunker): for any input text the output
passages, concatenated with the 100-character overlaps removed, reconstruct
the text exactly; every passage has length at most the 500-character target;
and every pair of consecutive passages shares an overlap of 100 characters —
a suffix of the earlier passage that is a prefix of the later one. -/
theorem claim_C7 (text : List Char) :
    concatMinusOverlap (chunk_text text) = text ∧
    (∀ c ∈ chunk_text text, c.length ≤ 500) ∧
    (∀ p ∈ consecPairs (chunk_text text),
      ∃ ov : List Char, ov.length = 100 ∧ ov <:+ p.1 ∧ ov <+: p.2) := by
  obtain ⟨h1, h2, h3⟩ := chunkAux_spec text.length text (le_refl _)
  refine ⟨h1, h2, ?_⟩
  intro p hp
  obtain ⟨hl, he⟩ := h3 p hp
  refine ⟨p.1.drop 400, ?_, List.drop_suffix _ _, ?_⟩
  · rw [List.length_drop, hl]
  · rw [← he]
    exact List.take_prefix _ _

set_option maxRecDepth 100000 in
/-- Witness for claim C7 on a concrete 501-character document, which chunks
into two passages. -/
theorem claim_C7_witness :
    concatMinusOverlap (chunk_text (List.replicate 501 'a')) =
      List.replicate 501 'a' ∧
    ((List.replicate 501 'a').take 500).length ≤ 500 ∧
    ∃ ov : List Char, ov.length = 100 ∧
      ov <:+ (List.replicate 501 'a').take 500 ∧
      ov <+: (List.replicate 501 'a').drop 400 := by
  obtain ⟨h1, h2, h3⟩ := claim_C7 (List.replicate 501 'a')
  refine ⟨h1, h2 _ (by decide), ?_⟩
  exact h3 ((List.replicate 501 'a').take 500, (List.replicate 501 'a').drop 400)
    (by decide)
